import Mathlib

/-!
# Verification of the CDJFormat drive-preparation core

A shallow embedding, in Lean 4, of the core components of the CDJFormat
repository: the textual progress reporter (`src/regex.go`), the output
translators that scrape erase-tool output into progress percentages
(`src/format.go`), the adaptive throughput benchmark and the integrity
verifier (`src/benchmark.go`), the threshold configuration
(`src/profile.go`), and the format orchestrator (`src/format.go`).

Modelling conventions:
* Go `int64` quantities are modelled as `Int` (or `Nat` where the source
  keeps them non-negative); the relevant quantities stay far below 2^63,
  so wrap-around is not modelled.
* Go `float64` speed arithmetic is modelled over `ℚ` (the operations used
  are division and comparison of moderate-magnitude values).
* I/O performed through the operating system (file creation, writes,
  reads, sync, close, process output, volume enumeration, stdin answers)
  is modelled by explicit input traces / environment parameters; the code
  under verification is everything that consumes those inputs.
* Loops that iterate on external input are recursions over the input
  trace; a trace too short to drive the loop to its exit is mapped to
  `none` and does not correspond to a terminated execution.
-/

namespace CDJF

/-! ## ProgressBar (src/regex.go)

The timing fields (`start`, `width`, `lastRender`) only influence what is
printed, never the `total`/`current`/`completed` state transitions, so
they are omitted.  Each method returns the new state together with a
`Bool` recording whether `render` was invoked. -/

structure ProgressBar where
  label : String
  total : Int
  current : Int
  completed : Bool
deriving DecidableEq, Repr

def ProgressBar.add (pb : ProgressBar) (n : Int) : ProgressBar × Bool :=
  if pb.completed then (pb, false)
  else
    let cur := pb.current + n
    let cur := if 0 < pb.total ∧ pb.total < cur then pb.total else cur
    ({ pb with current := cur }, true)

def ProgressBar.set (pb : ProgressBar) (n : Int) : ProgressBar × Bool :=
  if pb.completed then (pb, false)
  else
    let cur := n
    let cur :=
      if 0 < pb.total then
        if cur < 0 then 0 else if pb.total < cur then pb.total else cur
      else cur
    ({ pb with current := cur }, true)

def ProgressBar.finish (pb : ProgressBar) : ProgressBar × Bool :=
  if pb.completed then (pb, false)
  else
    let cur := if 0 < pb.total ∧ pb.current < pb.total then pb.total else pb.current
    ({ pb with current := cur, completed := true }, true)

def ProgressBar.stop (pb : ProgressBar) : ProgressBar × Bool :=
  if pb.completed then (pb, false)
  else ({ pb with completed := true }, true)

def ProgressBar.updateTotal (pb : ProgressBar) (total : Int) : ProgressBar × Bool :=
  if pb.completed ∨ total ≤ 0 then (pb, false)
  else
    let cur := if total < pb.current then total else pb.current
    ({ pb with total := total, current := cur }, true)

/-- A `nil` receiver is modelled as `none`; every method checks
`pb == nil` first and returns. -/
def addOpt : Option ProgressBar → Int → Option ProgressBar × Bool
  | none, _ => (none, false)
  | some pb, n => (some (pb.add n).1, (pb.add n).2)

def setOpt : Option ProgressBar → Int → Option ProgressBar × Bool
  | none, _ => (none, false)
  | some pb, n => (some (pb.set n).1, (pb.set n).2)

def finishOpt : Option ProgressBar → Option ProgressBar × Bool
  | none => (none, false)
  | some pb => (some (pb.finish).1, (pb.finish).2)

def stopOpt : Option ProgressBar → Option ProgressBar × Bool
  | none => (none, false)
  | some pb => (some (pb.stop).1, (pb.stop).2)

def updateTotalOpt : Option ProgressBar → Int → Option ProgressBar × Bool
  | none, _ => (none, false)
  | some pb, t => (some (pb.updateTotal t).1, (pb.updateTotal t).2)

/-! ## OutputTranslator (src/format.go, `macFormatOutputHandler` /
`windowsFormatOutputHandler`)

Lines are modelled as `List Char`.  Each handler closes over a mutable
`last : int64`; a handler step maps `last` and a line to the new `last`
and the list of percentages passed to `pb.Set` while handling the line
(the emissions of interest to the spec). -/

def lowerLine (l : List Char) : List Char := l.map Char.toLower

/-- Does `l` start with `pat`?  (`isPrefixL pat l`.) -/
def isPrefixL : List Char → List Char → Bool
  | [], _ => true
  | _ :: _, [] => false
  | a :: as, b :: bs => a == b && isPrefixL as bs

/-- Models `strings.Contains(l, pat)` as `containsSub pat l`. -/
def containsSub (pat : List Char) : List Char → Bool
  | [] => isPrefixL pat []
  | c :: rest => isPrefixL pat (c :: rest) || containsSub pat rest

/-- The macOS step table of `macFormatOutputHandler`. -/
def macSteps : List (List Char × Int) :=
  [( "started erase".toList, 5), ( "unmounting".toList, 15),
   ( "creating the partition map".toList, 35), ( "waiting for partitions".toList, 55),
   ( "formatting".toList, 75), ( "initialization complete".toList, 90),
   ( "finished".toList, 100)]

/-- First table entry whose pattern occurs in the (lower-cased) line. -/
def findStep : List (List Char × Int) → List Char → Option Int
  | [], _ => none
  | (pat, p) :: rest, line =>
    if containsSub pat line then some p else findStep rest line

def macHandlerStep (last : Int) (line : List Char) : Int × List Int :=
  match findStep macSteps (lowerLine line) with
  | some p => if last < p then (p, [p]) else (last, [])
  | none => (last, [])

/-- Decimal value of a digit run (`strconv.Atoi` on a `\d{1,3}` capture). -/
def digitsVal (ds : List Char) : Nat :=
  ds.foldl (fun acc c => acc * 10 + (c.toNat - 48)) 0

/-- Go's `\s` character class: `[\t\n\f\r ]`. -/
def goWhitespace (c : Char) : Bool :=
  c = ' ' ∨ c = '\t' ∨ c = '\n' ∨ c = '\r' ∨ c = '\x0c'

/-- Take exactly `k` leading decimal digits. -/
def takeDigits : Nat → List Char → Option (List Char × List Char)
  | 0, rest => some ([], rest)
  | _ + 1, [] => none
  | k + 1, c :: rest =>
    if c.isDigit then
      match takeDigits k rest with
      | some (ds, r) => some (c :: ds, r)
      | none => none
    else none

def pctStr : List Char := "percent".toList

/-- Try to match `\d{k}\s*percent` at the head of `l`, returning the
numeric capture. -/
def tryLen (k : Nat) (l : List Char) : Option Nat :=
  match takeDigits k l with
  | some (ds, rest) =>
    if isPrefixL pctStr (rest.dropWhile goWhitespace) then some (digitsVal ds) else none
  | none => none

/-- Match `(\d{1,3})\s*percent` at the head of `l` (greedy digit run,
as the Go regexp engine backtracks 3, then 2, then 1 digits). -/
def matchPercentAt (l : List Char) : Option Nat :=
  match tryLen 3 l with
  | some v => some v
  | none =>
    match tryLen 2 l with
    | some v => some v
    | none => tryLen 1 l

/-- Leftmost match of `(?i)(\d{1,3})\s*percent` over a lower-cased line
(`percentRegex.FindStringSubmatch` followed by `strconv.Atoi`). -/
def findPercent : List Char → Option Nat
  | [] => none
  | c :: rest =>
    match matchPercentAt (c :: rest) with
    | some v => some v
    | none => findPercent rest

def fcStr : List Char := "format complete".toList

def winHandlerStep (last : Int) (line : List Char) : Int × List Int :=
  match findPercent (lowerLine line) with
  | some v =>
    let progress : Int := (v : Int)
    let last2 := if last < progress then progress else last
    (last2, [progress])
  | none =>
    if containsSub fcStr (lowerLine line) ∧ last < 100 then (100, [100])
    else (last, [])

/-- Feed a sequence of lines through a handler (whose internal `last`
starts at `0`, the Go zero value) and collect every percentage passed to
`pb.Set`, in order. -/
def runHandler (step : Int → List Char → Int × List Int) :
    Int → List (List Char) → List Int
  | _, [] => []
  | last, l :: ls =>
    let s := step last l
    s.2 ++ runHandler step s.1 ls

def macEmitted (lines : List (List Char)) : List Int := runHandler macHandlerStep 0 lines

def winEmitted (lines : List (List Char)) : List Int := runHandler winHandlerStep 0 lines

/-- The emitted percentage sequence never decreases. -/
def nondecreasing : List Int → Bool
  | [] => true
  | [_] => true
  | a :: b :: rest => if a ≤ b then nondecreasing (b :: rest) else false

/-! ## ThroughputBenchmark (src/benchmark.go, `runIOMeasure`)

The write loop consumes one `WriteEv` per `file.Write` call: `n` is the
byte count the write reported, `werr` whether it returned an error, and
`elapsed` the value `time.Since(writeStart)` would have (in nanoseconds)
at the target-reached check of that iteration.  The read loop consumes
one `ReadEv` per `readFile.Read` call. -/

def mib : Nat := 1048576

def chunkSize : Nat := 4 * mib

/-- 400 ms in nanoseconds. -/
def minSampleDuration : Nat := 400000000

def initialSampleSize : Nat := 32 * mib

def maxSampleSize : Nat := 256 * mib

def nsPerSecond : Nat := 1000000000

/-- Computes `float64(bytes) / duration.Seconds() / (1024*1024)` over `ℚ`. -/
def mbps (bytes dur : Nat) : ℚ :=
  (bytes : ℚ) / ((dur : ℚ) / (nsPerSecond : ℚ)) / ((mib : ℚ))

structure BenchmarkResult where
  writeMBps : ℚ
  readMBps : ℚ
deriving DecidableEq, Repr

structure WriteEv where
  n : Nat
  werr : Bool
  elapsed : Nat
deriving DecidableEq, Repr

inductive WriteRes
  /-- the trace ended before the loop did: not a terminated execution -/
  | ranOut
  /-- a write error or short write: `runIOMeasure` returns the zero result -/
  | failed
  /-- normal loop exit with the final `bytesWritten`, the final
  `currentSampleTarget`, and one `(priorTarget, elapsed)` entry per
  "Extending write sample" doubling that occurred -/
  | done (written target : Nat) (ext : List (Nat × Nat))
deriving DecidableEq, Repr

def writeLoop : Nat → Nat → List WriteEv → WriteRes
  | written, target, [] =>
    if target ≤ written then .done written target [] else .ranOut
  | written, target, ev :: rest =>
    if target ≤ written then .done written target []
    else
      let toWrite := min chunkSize (target - written)
        let written2 := written + ev.n
        if ev.werr then .failed
        else if ev.n ≠ toWrite then .failed
        else if target ≤ written2 then
          if minSampleDuration ≤ ev.elapsed ∨ maxSampleSize ≤ target then
            .done written2 target []
          else
            match writeLoop written2 (min (target * 2) maxSampleSize) rest with
            | .done w t e => .done w t ((target, ev.elapsed) :: e)
            | r => r
        else writeLoop written2 target rest

inductive ReadErrKind
  | ok
  | eof
  | fail
deriving DecidableEq, Repr

structure ReadEv where
  n : Nat
  res : ReadErrKind
deriving DecidableEq, Repr

inductive ReadRes
  | ranOut
  /-- a non-EOF read error: `runIOMeasure` returns with `ReadMBps` still 0 -/
  | failed
  /-- loop exit via EOF or a zero-byte read, with the final `totalRead` -/
  | done (totalRead : Nat)
deriving DecidableEq, Repr

def readLoop : Nat → List ReadEv → ReadRes
  | _, [] => .ranOut
  | total, ev :: rest =>
    let total2 := total + ev.n
    match ev.res with
    | .fail => .failed
    | .eof => .done total2
    | .ok => if ev.n = 0 then .done total2 else readLoop total2 rest

/-- One terminated or aborted execution of `runIOMeasure`, as seen
through its interactions with the operating system. -/
structure IOTrace where
  createOk : Bool
  writes : List WriteEv
  syncOk : Bool
  closeOk : Bool
  /-- value of `time.Since(writeStart)` (ns) at the speed computation -/
  writeDuration : Nat
  openOk : Bool
  reads : List ReadEv
  readDuration : Nat
deriving DecidableEq, Repr

def runIOMeasure (tr : IOTrace) : Option BenchmarkResult :=
  if tr.createOk = false then some ⟨0, 0⟩
  else
    match writeLoop 0 initialSampleSize tr.writes with
    | .ranOut => none
    | .failed => some ⟨0, 0⟩
    | .done written _target _ext =>
      if tr.syncOk = false then some ⟨0, 0⟩
      else if tr.closeOk = false then some ⟨0, 0⟩
      else
        let wSpeed : ℚ :=
          if 0 < tr.writeDuration ∧ 0 < written then mbps written tr.writeDuration else 0
        if tr.openOk = false then some ⟨wSpeed, 0⟩
        else
          match readLoop 0 tr.reads with
          | .ranOut => none
          | .failed => some ⟨wSpeed, 0⟩
          | .done total =>
            let rSpeed : ℚ :=
              if 0 < tr.readDuration ∧ 0 < total then mbps total tr.readDuration else 0
            some ⟨wSpeed, rSpeed⟩

/-- Did the write loop exit normally? -/
def writeDoneB (tr : IOTrace) : Bool :=
  match writeLoop 0 initialSampleSize tr.writes with
  | .done _ _ _ => true
  | _ => false

/-- The write phase of `runIOMeasure` ran to completion: the file was
created, the write loop exited normally, and sync and close succeeded. -/
def writeCompleted (tr : IOTrace) : Prop :=
  tr.createOk = true ∧ writeDoneB tr = true ∧ tr.syncOk = true ∧ tr.closeOk = true

/-- Final `bytesWritten` of the write loop (0 if it did not exit
normally). -/
def writtenBytes (tr : IOTrace) : Nat :=
  match writeLoop 0 initialSampleSize tr.writes with
  | .done w _ _ => w
  | _ => 0

/-- Did the read loop exit normally? -/
def readDoneB (tr : IOTrace) : Bool :=
  match readLoop 0 tr.reads with
  | .done _ => true
  | _ => false

/-- The read phase of `runIOMeasure` ran to completion (which requires
the write phase to have completed and the reopen to have succeeded). -/
def readCompleted (tr : IOTrace) : Prop :=
  writeCompleted tr ∧ tr.openOk = true ∧ readDoneB tr = true

/-- Final `totalRead` of the read loop (0 if it did not exit
normally). -/
def readBytes (tr : IOTrace) : Nat :=
  match readLoop 0 tr.reads with
  | .done n => n
  | _ => 0

/-! ## IntegrityVerifier (src/benchmark.go, `runIntegrityCheck` /
`fillPattern`)

Error entries are modelled by an inductive type, one constructor per
`fmt.Sprintf` appended to `result.Errors` in the source, carrying the
numeric context the format string embeds.  Read-back data is a
`List Nat` of byte values. -/

def icChunkSize : Nat := 1048576

/-- Models `fillPattern(buf[:n], offset)`: `buf[i] = byte((offset+i) & 0xFF)`. -/
def fillPattern (offset n : Nat) : List Nat :=
  (List.range n).map (fun i => (offset + i) % 256)

inductive IErr
  | createFail
  /-- error "write at offset %d: %v" -/
  | writeFail (offset : Nat)
  /-- error "short write at offset %d (expected %d wrote %d)" -/
  | shortWrite (offset expected wrote : Nat)
  | syncFail
  | closeFail
  /-- error "reopen for read: %v" -/
  | reopenFail
  /-- error "data mismatch at offset %d" -/
  | mismatch (offset : Nat)
  /-- error "read error after %d bytes: %v" -/
  | readFail (after : Nat)
deriving DecidableEq, Repr

structure IntegrityResult where
  writeMBps : ℚ
  readMBps : ℚ
  bytesWritten : Nat
  bytesVerified : Nat
  errors : List IErr
deriving DecidableEq, Repr

def IntegrityResult.success (r : IntegrityResult) : Bool := r.errors.isEmpty

structure WEv where
  n : Nat
  werr : Bool
deriving DecidableEq, Repr

/-- The write loop of `runIntegrityCheck`; returns the final
`bytesWritten` and the error (if any) that stopped the phase, or `none`
for a trace too short to finish the loop. -/
def icWriteLoop (size : Nat) : Nat → List WEv → Option (Nat × Option IErr)
  | written, [] =>
    if size ≤ written then some (written, none) else none
  | written, ev :: rest =>
    if size ≤ written then some (written, none)
    else
      let toWrite := min icChunkSize (size - written)
        let written2 := written + ev.n
        if ev.werr then some (written2, some (.writeFail written))
        else if ev.n ≠ toWrite then some (written2, some (.shortWrite written toWrite ev.n))
        else icWriteLoop size written2 rest

structure REv where
  data : List Nat
  res : ReadErrKind
deriving DecidableEq, Repr

/-- The verify loop of `runIntegrityCheck`; returns the final
`bytesVerified` and the error (if any) that stopped the phase. -/
def icVerifyLoop : Nat → List REv → Option (Nat × Option IErr)
  | _, [] => none
  | verified, ev :: rest =>
    let n := ev.data.length
    if 0 < n then
      if ev.data ≠ fillPattern verified n then some (verified + n, some (.mismatch verified))
      else
        match ev.res with
        | .fail => some (verified + n, some (.readFail (verified + n)))
        | .eof => some (verified + n, none)
        | .ok => icVerifyLoop (verified + n) rest
    else
      match ev.res with
      | .fail => some (verified, some (.readFail verified))
      | .eof => some (verified, none)
      | .ok => icVerifyLoop verified rest

structure ITrace where
  createOk : Bool
  writes : List WEv
  syncOk : Bool
  closeOk : Bool
  writeDuration : Nat
  openOk : Bool
  reads : List REv
  readDuration : Nat
deriving DecidableEq, Repr

def runIntegrityCheck (size : Nat) (tr : ITrace) : Option IntegrityResult :=
  if tr.createOk = false then some ⟨0, 0, 0, 0, [.createFail]⟩
  else
    match icWriteLoop size 0 tr.writes with
    | none => none
    | some (written, some e) => some ⟨0, 0, written, 0, [e]⟩
    | some (written, none) =>
      if tr.syncOk = false then some ⟨0, 0, written, 0, [.syncFail]⟩
      else if tr.closeOk = false then some ⟨0, 0, written, 0, [.closeFail]⟩
      else
        let wSpeed : ℚ :=
          if 0 < tr.writeDuration ∧ 0 < written then mbps written tr.writeDuration else 0
        if tr.openOk = false then some ⟨wSpeed, 0, written, 0, [.reopenFail]⟩
        else
          match icVerifyLoop 0 tr.reads with
          | none => none
          | some (verified, errOpt) =>
            let rSpeed : ℚ :=
              if 0 < tr.readDuration ∧ 0 < verified then mbps verified tr.readDuration else 0
            some ⟨wSpeed, rSpeed, written, verified,
                  match errOpt with
                  | some e => [e]
                  | none => []⟩

/-- Read events delivering exactly the expected pattern in chunks of the
given lengths, starting at `off`. -/
def cleanChunks (off : Nat) : List Nat → List REv
  | [] => []
  | n :: ns => ⟨fillPattern off n, .ok⟩ :: cleanChunks (off + n) ns

/-- A clean read-back of the whole file: pattern chunks followed by EOF. -/
def cleanREvs (off : Nat) (ns : List Nat) : List REv :=
  cleanChunks off ns ++ [⟨[], .eof⟩]

/-- Index of the first position where two equally long lists differ. -/
def firstDiffIdx : List Nat → List Nat → Nat
  | a :: as, b :: bs => if a = b then firstDiffIdx as bs + 1 else 0
  | _, _ => 0

/-! ## Thresholds and profiles (src/benchmark.go, src/profile.go) -/

structure BenchmarkThresholds where
  extremelySlow : ℚ
  verySlow : ℚ
  slightlySlow : ℚ
  prompt : ℚ
deriving DecidableEq, Repr

def defaultBenchmarkThresholds : BenchmarkThresholds := ⟨2, 3, 6, 5⟩

def mergedBenchmarkThresholds (custom : Option BenchmarkThresholds) : BenchmarkThresholds :=
  match custom with
  | none => defaultBenchmarkThresholds
  | some c =>
    { extremelySlow :=
        if 0 < c.extremelySlow then c.extremelySlow else defaultBenchmarkThresholds.extremelySlow
      verySlow :=
        if 0 < c.verySlow then c.verySlow else defaultBenchmarkThresholds.verySlow
      slightlySlow :=
        if 0 < c.slightlySlow then c.slightlySlow else defaultBenchmarkThresholds.slightlySlow
      prompt :=
        if 0 < c.prompt then c.prompt else defaultBenchmarkThresholds.prompt }

inductive ThresholdErr
  | nonPositive
  | extremelyAboveVery
  | veryAboveSlightly
  | promptNonPositive
deriving DecidableEq, Repr

/-- Models `validateBenchmarkThresholds` (src/profile.go); invoked only on the
`profile save` path, with the threshold flags merged in. -/
def validateBenchmarkThresholds (t : BenchmarkThresholds) : Option ThresholdErr :=
  if t.extremelySlow ≤ 0 ∨ t.verySlow ≤ 0 ∨ t.slightlySlow ≤ 0 then some .nonPositive
  else if t.verySlow < t.extremelySlow then some .extremelyAboveVery
  else if t.slightlySlow < t.verySlow then some .veryAboveSlightly
  else if t.prompt ≤ 0 then some .promptNonPositive
  else none

structure Profile where
  name : String
  label : String
  clusterSize : String
  benchmarkThresholds : Option BenchmarkThresholds
deriving DecidableEq, Repr

/-! ## Cluster sizes and labels (src/format.go) -/

def upperS (s : String) : String := String.mk (s.toList.map Char.toUpper)

/-- Models `strings.TrimSpace` (ASCII whitespace suffices for the inputs the
tool handles). -/
def wsTrim (c : Char) : Bool :=
  c = ' ' ∨ c = '\t' ∨ c = '\n' ∨ c = '\r' ∨ c = '\x0b' ∨ c = '\x0c'

def trimS (s : String) : String :=
  String.mk (((s.toList.dropWhile wsTrim).reverse.dropWhile wsTrim).reverse)

/-- Models `strings.TrimSuffix(s, "B")`. -/
def trimSuffixB (s : String) : String :=
  match s.toList.getLast? with
  | some c => if c = 'B' then String.mk s.toList.dropLast else s
  | none => s

def clusterTable : List (String × String) :=
  [( "512", "512"), ( "1K", "1K"), ( "1024", "1K"), ( "2K", "2K"), ( "2048", "2K"),
   ( "4K", "4K"), ( "4096", "4K"), ( "8K", "8K"), ( "8192", "8K"),
   ( "16K", "16K"), ( "16384", "16K"), ( "32K", "32K"), ( "32768", "32K"),
   ( "64K", "64K"), ( "65536", "64K")]

/-- Models `normalizeClusterSize`; `none` models the "invalid cluster size"
error return. -/
def normalizeClusterSize (value : String) : Option String :=
  let trimmed := trimS value
  if trimmed = "" then some trimmed
  else
    let upper := trimSuffixB (upperS trimmed)
    match clusterTable.find? (fun p => p.1 = upper) with
    | some p => some p.2
    | none => none

/-- Models `getUniqueLabel`, with the externally observed volume-label set
(`getExistingLabels`, upper-cased keys) supplied as a predicate.  The
`for i := 2; i <= 99` loop is the first-match search over `[2..99]`. -/
def getUniqueLabel (existing : String → Bool) (baseLabel : String) : String :=
  if existing (upperS baseLabel) = false then baseLabel
  else
    match (List.range' 2 98).find? (fun i => !existing (upperS (baseLabel ++ toString i))) with
    | some i => baseLabel ++ toString i
    | none => baseLabel

/-- Label chosen inside the `formatMultipleDrives` goroutine for the
device at 0-based index `idx`. -/
def assignedLabel (baseLabel : String) (idx : Nat) : String :=
  if idx = 0 then baseLabel else baseLabel ++ toString (idx + 1)

/-! ## FormatOrchestrator (src/format.go, `formatDrive` /
`formatMultipleDrives`)

External collaborators (profile store, device capability probes, the
platform erase primitives, volume-label enumeration, stdin answers) are
supplied through an environment record.  `formatDrive`'s observable
behaviour is modelled as the ordered list of collaborator actions it
performs plus a terminal outcome; `os.Exit(1)` paths are `exitFail`. -/

inductive OS
  | darwin
  | windows
  | other
deriving DecidableEq, Repr

/-- Models `validateDevice` (src/device.go): a pure shape check on the
identifier, no device I/O. -/
def validateDevice (os : OS) (device : String) : Bool :=
  match os with
  | .darwin => isPrefixL ( "disk".toList) device.toList
  | .windows =>
    match device.toList with
    | _ :: c :: _ => c = ':'
    | _ => false
  | .other => true

inductive FmtAction
  | loadProfileAct (name : String)
  | listDrivesAct
  | validateAct (device : String)
  | removableAct (device : String)
  | sizeAct (device : String)
  | benchmarkAct (device : String)
  | formatSingleAct (device : String)
  | formatMultiAct (devices : List String)
deriving DecidableEq, Repr

/-- Actions that touch a device (device I/O): capability probes, size
queries, benchmarking and the erase paths.  `validateAct` is a pure
string check and `listDrivesAct` read-only enumeration for browsing. -/
def touchesDevice : FmtAction → Bool
  | .removableAct _ => true
  | .sizeAct _ => true
  | .benchmarkAct _ => true
  | .formatSingleAct _ => true
  | .formatMultiAct _ => true
  | _ => false

inductive FmtOutcome
  | exitFail
  | cancelled
  | formats (devices : List String) (label clusterSize : String) (thresholds : BenchmarkThresholds)
deriving DecidableEq, Repr

structure FmtFlags where
  skipConfirm : Bool
  label : String
  labelChanged : Bool
  clusterSize : String
  profileName : String
deriving DecidableEq, Repr

structure FmtEnv where
  os : OS
  profiles : String → Option Profile
  removableErr : String → Option String
  driveSizeGB : String → ℚ
  stdinDevices : List String
  bench : String → BenchmarkResult
  answerProceedSlow : Bool
  answerConfirm : Bool

/-- The per-device validation loop of `formatDrive` (lines 83–99):
`validateDevice`, `ensureRemovableDevice`, `getDriveSize` for each
device, exiting on the first failure. -/
def deviceChecks (env : FmtEnv) : List String → List FmtAction × Bool
  | [] => ([], true)
  | d :: ds =>
    if validateDevice env.os d = false then ([.validateAct d], false)
    else
      match env.removableErr d with
      | some _ => ([.validateAct d, .removableAct d], false)
      | none =>
        let rest := deviceChecks env ds
        (.validateAct d :: .removableAct d :: .sizeAct d :: rest.1, rest.2)

/-- Models `formatDrive` from the final confirmation onward (lines 117–143). -/
def fmtStage4 (env : FmtEnv) (flags : FmtFlags) (thresholds : BenchmarkThresholds)
    (label clusterSize : String) (devices : List String) (acts : List FmtAction) :
    List FmtAction × FmtOutcome :=
  if flags.skipConfirm = false ∧ env.answerConfirm = false then (acts, .cancelled)
  else
    match devices with
    | [d] => (acts ++ [.formatSingleAct d], .formats devices label clusterSize thresholds)
    | _ => (acts ++ [.formatMultiAct devices], .formats devices label clusterSize thresholds)

/-- The single-device benchmark-and-prompt step of `formatDrive`
(lines 101–115), then stage 4. -/
def fmtStage3 (env : FmtEnv) (flags : FmtFlags) (thresholds : BenchmarkThresholds)
    (label clusterSize : String) (devices : List String) (acts : List FmtAction) :
    List FmtAction × FmtOutcome :=
  if flags.skipConfirm = false ∧ devices.length = 1 then
    match devices with
    | d :: _ =>
      let acts := acts ++ [.benchmarkAct d]
      let result := env.bench d
      if 0 < thresholds.prompt ∧ 0 < result.writeMBps ∧ result.writeMBps < thresholds.prompt ∧
          env.answerProceedSlow = false then
        (acts, .cancelled)
      else fmtStage4 env flags thresholds label clusterSize devices acts
    | [] => fmtStage4 env flags thresholds label clusterSize devices acts
  else fmtStage4 env flags thresholds label clusterSize devices acts

/-- Models `formatDrive` from cluster-size normalization onward (lines 50–143):
everything after the profile stage has fixed the thresholds, label and
cluster-size candidates. -/
def fmtStage2 (env : FmtEnv) (flags : FmtFlags) (thresholds : BenchmarkThresholds)
    (label clusterSize : String) (args : List String) (acts : List FmtAction) :
    List FmtAction × FmtOutcome :=
  let clusterStep := if clusterSize = "" then some clusterSize else normalizeClusterSize clusterSize
  match clusterStep with
  | none => (acts, .exitFail)
  | some cluster1 =>
    let devices := if args = [] then env.stdinDevices else args
    let acts := acts ++ (if args = [] then [.listDrivesAct] else [])
    if devices = [] then (acts, .exitFail)
    else
      let checks := deviceChecks env devices
      let acts := acts ++ checks.1
      if checks.2 = false then (acts, .exitFail)
      else fmtStage3 env flags thresholds label cluster1 devices acts

/-- Models `formatDrive` (src/format.go lines 18–144): profile loading and
threshold merging, then stage 2. -/
def formatDriveModel (env : FmtEnv) (flags : FmtFlags) (args : List String) :
    List FmtAction × FmtOutcome :=
  let cluster0 := trimS flags.clusterSize
  if flags.profileName = "" then
    fmtStage2 env flags defaultBenchmarkThresholds flags.label cluster0 args []
  else
    match env.profiles flags.profileName with
    | none => ([.loadProfileAct flags.profileName], .exitFail)
    | some p =>
      let thresholds :=
        if p.benchmarkThresholds.isSome then mergedBenchmarkThresholds p.benchmarkThresholds
        else defaultBenchmarkThresholds
      let label :=
        if flags.labelChanged = false ∧ trimS p.label ≠ "" then p.label else flags.label
      let cluster :=
        if cluster0 = "" ∧ trimS p.clusterSize ≠ "" then p.clusterSize else cluster0
      fmtStage2 env flags thresholds label cluster args [.loadProfileAct flags.profileName]

/-- Prefix of an action list before the first device-touching action. -/
def preTouch (acts : List FmtAction) : List FmtAction :=
  acts.takeWhile (fun a => !touchesDevice a)

/-! ## Concurrent multi-device formatting (src/format.go,
`formatMultipleDrives`)

Each goroutine is modelled by `driveTask`, which returns the list of
sends it performs on the `results` channel together with the list of
devices on which it invokes a platform erase.  `formatMultipleDrives`
fans out one task per device; channel receive order depends on
scheduling, so only the collected multiset (here: the canonical
spawn-order concatenation) is meaningful. -/

inductive FormatOutcome
  /-- outcome "[%s] FAILED: %v" -/
  | failed (device diagnostic : String)
  /-- outcome "[%s] SUCCESS" -/
  | success (device : String)
deriving DecidableEq, Repr

structure MultiEnv where
  os : OS
  existingLabels : String → String → Bool
  removableErr : String → Option String
  formatMacErr : String → String → String → Option String
  formatWindowsErr : String → String → String → Option String

/-- The body of one `formatMultipleDrives` goroutine (lines 203–232):
label assignment, uniqueness pass, removability check, platform format;
returns (channel sends, devices on which a format was invoked). -/
def driveTask (env : MultiEnv) (baseLabel clusterSize dev : String) (idx : Nat) :
    List FormatOutcome × List String :=
  let label := assignedLabel baseLabel idx
  let label := getUniqueLabel (env.existingLabels dev) label
  match env.removableErr dev with
  | some e => ([.failed dev e], [])
  | none =>
    let err :=
      match env.os with
      | .darwin => env.formatMacErr dev label clusterSize
      | .windows => env.formatWindowsErr dev label clusterSize
      | .other => none
    match err with
    | some e => ([.failed dev e], [dev])
    | none => ([.success dev], [dev])

/-- The fan-out loop of `formatMultipleDrives` (`for i, device := range
devices`), collecting every task's sends and format attempts. -/
def multiFanOut (env : MultiEnv) (baseLabel clusterSize : String) :
    List String → Nat → List FormatOutcome × List String
  | [], _ => ([], [])
  | d :: ds, i =>
    let t := driveTask env baseLabel clusterSize d i
    let rest := multiFanOut env baseLabel clusterSize ds (i + 1)
    (t.1 ++ rest.1, t.2 ++ rest.2)

def formatMultipleDrives (env : MultiEnv) (devices : List String)
    (baseLabel clusterSize : String) : List FormatOutcome × List String :=
  multiFanOut env baseLabel clusterSize devices 0

/-- The labels the `formatMultipleDrives` tasks pass to the platform
format commands, in spawn order. -/
def multiLabels (env : MultiEnv) (baseLabel : String) (devices : List String) : List String :=
  (List.range devices.length).zip devices |>.map
    (fun p => getUniqueLabel (env.existingLabels p.2) (assignedLabel baseLabel p.1))

/-! ## Concrete instances used to exercise the model -/

/-- A profile whose stored thresholds set only `extremely_slow`, to a
value above the default `very_slow`/`slightly_slow`; merging with the
defaults then yields `⟨10, 3, 6, 5⟩`, which violates the ordering
invariant. -/
def badProfile : Profile :=
  { name := "p", label := "", clusterSize := "", benchmarkThresholds := some ⟨10, 0, 0, 0⟩ }

def c6Env : FmtEnv :=
  { os := .darwin
    profiles := fun n => if n = "p" then some badProfile else none
    removableErr := fun _ => none
    driveSizeGB := fun _ => 10
    stdinDevices := []
    bench := fun _ => ⟨50, 50⟩
    answerProceedSlow := true
    answerConfirm := true }

def c6Flags : FmtFlags :=
  { skipConfirm := false, label := "REKORDBOX", labelChanged := false,
    clusterSize := "", profileName := "p" }

/-- A volume-label environment in which no label is in use anywhere. -/
def emptyLabelEnv : MultiEnv :=
  { os := .darwin
    existingLabels := fun _ _ => false
    removableErr := fun _ => none
    formatMacErr := fun _ _ _ => none
    formatWindowsErr := fun _ _ _ => none }

/-! # Theorems -/

/-! ## Progress bar clamping (C7) -/

/-- C7: the claim as stated is false: `Add` clamps only from above, so a
negative `n` drives `current` below `0`.  On the bar
`{total := 10, current := 0}` (not completed), `Add(-1)` leaves
`current = -1 < 0`. -/
theorem c7_add_negative_counterexample :
    (({ label := "Write", total := 10, current := 0, completed := false } :
        ProgressBar).add (-1)).1.current = -1 ∧
    (0 : Int) < 10 ∧
    ¬(0 ≤ (({ label := "Write", total := 10, current := 0, completed := false} :
        ProgressBar).add (-1)).1.current) := by
  decide

/-- C7 (amended): for a non-terminal bar with `total > 0`, `Set` clamps
`current` into `[0, total]`; `Add` clamps only from above, so after
`Add(n)` we always have `current ≤ total`, and `0 ≤ current` additionally
holds whenever the unclamped sum `current + n` is non-negative (in
particular for every `n ≥ 0` from a non-negative state). -/
theorem c7_clamping_amended (pb : ProgressBar) (n : Int)
    (htotal : 0 < pb.total) (hc : pb.completed = false) :
    (0 ≤ (pb.set n).1.current ∧ (pb.set n).1.current ≤ pb.total) ∧
    (pb.add n).1.current ≤ pb.total ∧
    (0 ≤ pb.current + n → 0 ≤ (pb.add n).1.current) := by
  unfold ProgressBar.set ProgressBar.add
  simp only [hc, Bool.false_eq_true, if_false]
  split_ifs <;> simp_all <;> omega

theorem c7_clamping_amended_witness :
    (0 ≤ (({ label := "Write", total := 10, current := 3, completed := false } :
        ProgressBar).set 42).1.current ∧
     (({ label := "Write", total := 10, current := 3, completed := false } :
        ProgressBar).set 42).1.current ≤ 10) ∧
    (({ label := "Write", total := 10, current := 3, completed := false } :
        ProgressBar).add 42).1.current ≤ 10 ∧
    (0 ≤ (3 : Int) + 42 →
      0 ≤ (({ label := "Write", total := 10, current := 3, completed := false } :
        ProgressBar).add 42).1.current) :=
  c7_clamping_amended
    { label := "Write", total := 10, current := 3, completed := false } 42
    (by decide) (by decide)

/-! ## Terminal / nil progress bars are no-ops (C10) -/

/-- C10: every `ProgressBar` method called on a `nil` receiver or on a
bar already marked `completed` returns the state unchanged and does not
invoke `render`. -/
theorem c10_terminal_noop :
    (∀ n, addOpt none n = (none, false)) ∧
    (∀ n, setOpt none n = (none, false)) ∧
    finishOpt none = (none, false) ∧
    stopOpt none = (none, false) ∧
    (∀ t, updateTotalOpt none t = (none, false)) ∧
    (∀ (pb : ProgressBar) n, pb.completed = true → pb.add n = (pb, false)) ∧
    (∀ (pb : ProgressBar) n, pb.completed = true → pb.set n = (pb, false)) ∧
    (∀ (pb : ProgressBar), pb.completed = true → pb.finish = (pb, false)) ∧
    (∀ (pb : ProgressBar), pb.completed = true → pb.stop = (pb, false)) ∧
    (∀ (pb : ProgressBar) t, pb.completed = true → pb.updateTotal t = (pb, false)) := by
  refine ⟨fun n => rfl, fun n => rfl, rfl, rfl, fun t => rfl, ?_, ?_, ?_, ?_, ?_⟩ <;>
    intros pb
  case _ => intro n h; simp [ProgressBar.add, h]
  case _ => intro n h; simp [ProgressBar.set, h]
  case _ => intro h; simp [ProgressBar.finish, h]
  case _ => intro h; simp [ProgressBar.stop, h]
  case _ => intro t h; simp [ProgressBar.updateTotal, h]

theorem c10_terminal_noop_witness :
    ({ label := "Format", total := 100, current := 40, completed := true } :
        ProgressBar).add 10 =
      ({ label := "Format", total := 100, current := 40, completed := true }, false) :=
  c10_terminal_noop.2.2.2.2.2.1
    { label := "Format", total := 100, current := 40, completed := true } 10 rfl

/-! ## Output translator monotonicity (C1) -/

theorem nondecreasing_cons (a : Int) (l : List Int)
    (hall : ∀ x ∈ l, a ≤ x) (hl : nondecreasing l = true) :
    nondecreasing (a :: l) = true := by
  cases l with
  | nil => rfl
  | cons b bs =>
    have hab : a ≤ b := hall b (by simp)
    simp only [nondecreasing, hab, if_true]
    exact hl

theorem macRun_invariant (lines : List (List Char)) :
    ∀ last : Int,
      nondecreasing (runHandler macHandlerStep last lines) = true ∧
      ∀ x ∈ runHandler macHandlerStep last lines, last ≤ x := by
  induction lines with
  | nil => intro last; exact ⟨rfl, by simp [runHandler]⟩
  | cons l ls ih =>
    intro last
    have hrun : runHandler macHandlerStep last (l :: ls) =
        (macHandlerStep last l).2 ++
          runHandler macHandlerStep (macHandlerStep last l).1 ls := rfl
    cases hf : findStep macSteps (lowerLine l) with
    | none =>
      have hstep : macHandlerStep last l = (last, []) := by
        simp [macHandlerStep, hf]
      rw [hrun, hstep]
      simpa using ih last
    | some p =>
      by_cases hp : last < p
      · have hstep : macHandlerStep last l = (p, [p]) := by
          simp [macHandlerStep, hf, hp]
        rw [hrun, hstep]
        rcases ih p with ⟨hchain, hbound⟩
        simp only [List.singleton_append]
        constructor
        · exact nondecreasing_cons p _ hbound hchain
        · intro x hx
          rcases List.mem_cons.mp hx with hx | hx
          · omega
          · exact le_trans (le_of_lt hp) (hbound x hx)
      · have hstep : macHandlerStep last l = (last, []) := by
          simp [macHandlerStep, hf, hp]
        rw [hrun, hstep]
        simpa using ih last

/-- C1: the claim as stated is false for the Windows numeric path: a
matched `NN percent` token is passed to `pb.Set` unconditionally (only
the internal `last` is guarded), so the lines `"50 percent"`,
`"30 percent"` make the handler emit `50` and then `30` — a regression. -/
theorem c1_windows_numeric_regression :
    winEmitted [ "50 percent".toList, "30 percent".toList] = [50, 30] ∧
    nondecreasing (winEmitted [ "50 percent".toList, "30 percent".toList]) = false := by
  decide

/-- C1 (amended): the macOS substring-table handler updates the reporter
only for strictly larger table percentages, so its emitted sequence is
non-decreasing over the operation's lifetime; the Windows handler keeps
its tracked `last` percentage non-decreasing (and emits `100` on
"format complete" only while `last < 100`), but its numeric
`NN percent` path calls `pb.Set` on every parsed match even when the
value is not greater than `last`, so the Windows emitted sequence may
decrease. -/
theorem c1_monotonic_amended :
    (∀ lines, nondecreasing (macEmitted lines) = true) ∧
    (∀ (last : Int) line, last ≤ (winHandlerStep last line).1) := by
  constructor
  · intro lines
    exact (macRun_invariant lines 0).1
  · intro last line
    cases hf : findPercent (lowerLine line) with
    | some v =>
      have hstep : winHandlerStep last line =
          (if last < (v : Int) then (v : Int) else last, [(v : Int)]) := by
        simp [winHandlerStep, hf]
      rw [hstep]
      split_ifs <;> omega
    | none =>
      by_cases hc : containsSub fcStr (lowerLine line) ∧ last < 100
      · have hstep : winHandlerStep last line = (100, [100]) := by
          simp [winHandlerStep, hf, hc]
        rw [hstep]
        exact le_of_lt hc.2
      · have hstep : winHandlerStep last line = (last, []) := by
          simp [winHandlerStep, hf, hc]
        rw [hstep]

/-! ## Adaptive sample-target invariant (C2) -/

theorem maxSampleSize_eq : maxSampleSize = initialSampleSize * 2 ^ 3 := by
  norm_num [maxSampleSize, initialSampleSize, mib]

theorem writeLoop_invariant (evs : List WriteEv) :
    ∀ (written target : Nat),
      initialSampleSize ≤ target → target ≤ maxSampleSize →
      (∃ k, target = initialSampleSize * 2 ^ k) →
      ∀ w t e, writeLoop written target evs = .done w t e →
        (initialSampleSize ≤ t ∧ t ≤ maxSampleSize ∧
          ∃ k, t = initialSampleSize * 2 ^ k) ∧
        ∀ p ∈ e, p.2 < minSampleDuration ∧ p.1 < maxSampleSize := by
  induction evs with
  | nil =>
    intro written target h1 h2 h3 w t e hdone
    simp only [writeLoop] at hdone
    split at hdone
    · cases hdone
      exact ⟨⟨h1, h2, h3⟩, by simp⟩
    · cases hdone
  | cons ev rest ih =>
    intro written target h1 h2 h3 w t e hdone
    simp only [writeLoop] at hdone
    split at hdone
    · cases hdone
      exact ⟨⟨h1, h2, h3⟩, by simp⟩
    · by_cases hw : ev.werr = true
      · rw [if_pos hw] at hdone
        cases hdone
      · rw [if_neg hw] at hdone
        by_cases hn : ev.n ≠ min chunkSize (target - written)
        · rw [if_pos hn] at hdone
          cases hdone
        · rw [if_neg hn] at hdone
          by_cases ht : target ≤ written + ev.n
          · rw [if_pos ht] at hdone
            by_cases hcond : minSampleDuration ≤ ev.elapsed ∨ maxSampleSize ≤ target
            · -- the sample was long enough (or already at the cap): break
              rw [if_pos hcond] at hdone
              cases hdone
              exact ⟨⟨h1, h2, h3⟩, by simp⟩
            · -- target reached too fast and below the cap: double and continue
              rw [if_neg hcond] at hdone
              push_neg at hcond
              cases hres : writeLoop (written + ev.n) (min (target * 2) maxSampleSize) rest with
              | ranOut => rw [hres] at hdone; cases hdone
              | failed => rw [hres] at hdone; cases hdone
              | done w' t' e' =>
                rw [hres] at hdone
                have hinit : initialSampleSize ≤ min (target * 2) maxSampleSize :=
                  le_min (le_trans h1 (by omega)) (le_trans h1 h2)
                have hmax : min (target * 2) maxSampleSize ≤ maxSampleSize := min_le_right _ _
                have hpow : ∃ k, min (target * 2) maxSampleSize = initialSampleSize * 2 ^ k := by
                  rcases h3 with ⟨k, rfl⟩
                  rcases le_or_lt (initialSampleSize * 2 ^ k * 2) maxSampleSize with hle | hlt
                  · exact ⟨k + 1, by rw [min_eq_left hle]; ring⟩
                  · exact ⟨3, by rw [min_eq_right (le_of_lt hlt), maxSampleSize_eq]⟩
                rcases ih (written + ev.n) (min (target * 2) maxSampleSize)
                  hinit hmax hpow w' t' e' hres with ⟨hinv, hext⟩
                cases hdone
                refine ⟨hinv, ?_⟩
                intro p hp
                rcases List.mem_cons.mp hp with hp | hp
                · subst hp
                  exact ⟨hcond.1, hcond.2⟩
                · exact hext p hp
          · -- target not yet reached: keep writing
            rw [if_neg ht] at hdone
            exact ih (written + ev.n) target h1 h2 h3 w t e hdone

/-- C2: whenever the adaptive write loop of `runIOMeasure` terminates
normally, the final sample target lies in `[32 MiB, 256 MiB]` and is a
power-of-two multiple of the initial 32 MiB; and every doubling it
performed (each "Extending write sample" step, recorded in `e` with the
prior target and the elapsed time that triggered it) happened only
because the target was reached in under 400 ms while the target was
still below 256 MiB. -/
theorem c2_adaptive_target_invariant (evs : List WriteEv) (w t : Nat)
    (e : List (Nat × Nat)) (hdone : writeLoop 0 initialSampleSize evs = .done w t e) :
    (initialSampleSize ≤ t ∧ t ≤ maxSampleSize ∧
      ∃ k, t = initialSampleSize * 2 ^ k) ∧
    ∀ p ∈ e, p.2 < minSampleDuration ∧ p.1 < maxSampleSize :=
  writeLoop_invariant evs 0 initialSampleSize (le_refl _)
    (by norm_num [initialSampleSize, maxSampleSize, mib])
    ⟨0, by norm_num⟩ w t e hdone

theorem c2_adaptive_target_invariant_witness :
    (initialSampleSize ≤ 33554432 ∧ (33554432 : Nat) ≤ maxSampleSize ∧
      ∃ k, (33554432 : Nat) = initialSampleSize * 2 ^ k) ∧
    ∀ p ∈ ([] : List (Nat × Nat)), p.2 < minSampleDuration ∧ p.1 < maxSampleSize :=
  c2_adaptive_target_invariant (List.replicate 8 ⟨4 * mib, false, 500000000⟩)
    33554432 33554432 [] (by decide)

/-! ## Benchmark speeds: zero or strictly positive (C5) -/

theorem mbps_pos {b d : Nat} (hb : 0 < b) (hd : 0 < d) : 0 < mbps b d := by
  have hb' : 0 < (b : ℚ) := by exact_mod_cast hb
  have hd' : 0 < (d : ℚ) := by exact_mod_cast hd
  have hns : 0 < ((nsPerSecond : Nat) : ℚ) := by norm_num [nsPerSecond]
  have hm : 0 < ((mib : Nat) : ℚ) := by norm_num [mib]
  exact div_pos (div_pos hb' (div_pos hd' hns)) hm

/-- C5: `runIOMeasure` never produces an error: every terminated
execution yields a `BenchmarkResult`, with a create failure yielding the
all-zero result; and each speed is strictly positive exactly when the
corresponding phase ran to completion with a positive elapsed time and a
positive byte count, and is exactly `0` otherwise. -/
theorem c5_benchmark_zero_or_positive (tr : IOTrace) (r : BenchmarkResult)
    (h : runIOMeasure tr = some r) :
    ((0 < r.writeMBps ↔
        writeCompleted tr ∧ 0 < tr.writeDuration ∧ 0 < writtenBytes tr) ∧
      (¬(writeCompleted tr ∧ 0 < tr.writeDuration ∧ 0 < writtenBytes tr) →
        r.writeMBps = 0)) ∧
    ((0 < r.readMBps ↔
        readCompleted tr ∧ 0 < tr.readDuration ∧ 0 < readBytes tr) ∧
      (¬(readCompleted tr ∧ 0 < tr.readDuration ∧ 0 < readBytes tr) →
        r.readMBps = 0)) ∧
    (tr.createOk = false → r = ⟨0, 0⟩) := by
  unfold runIOMeasure at h
  by_cases hc : tr.createOk = false
  · rw [if_pos hc] at h
    cases h
    have hwc : ¬ writeCompleted tr := fun hw => by rw [hw.1] at hc; cases hc
    have hrc : ¬ readCompleted tr := fun hr => hwc hr.1
    refine ⟨⟨?_, fun _ => rfl⟩, ⟨?_, fun _ => rfl⟩, fun _ => rfl⟩
    · constructor
      · intro hpos; exact absurd hpos (by norm_num)
      · intro hcond; exact absurd hcond.1 hwc
    · constructor
      · intro hpos; exact absurd hpos (by norm_num)
      · intro hcond; exact absurd hcond.1 hrc
  · rw [if_neg hc] at h
    have hc' : tr.createOk = true := by
      cases hcc : tr.createOk
      · exact absurd hcc hc
      · rfl
    cases hwl : writeLoop 0 initialSampleSize tr.writes with
    | ranOut => rw [hwl] at h; cases h
    | failed =>
      rw [hwl] at h
      cases h
      have hwc : ¬ writeCompleted tr := fun hw => by
        have := hw.2.1
        rw [writeDoneB, hwl] at this
        cases this
      have hrc : ¬ readCompleted tr := fun hr => hwc hr.1
      refine ⟨⟨?_, fun _ => rfl⟩, ⟨?_, fun _ => rfl⟩, fun hcf => absurd hcf hc⟩
      · constructor
        · intro hpos; exact absurd hpos (by norm_num)
        · intro hcond; exact absurd hcond.1 hwc
      · constructor
        · intro hpos; exact absurd hpos (by norm_num)
        · intro hcond; exact absurd hcond.1 hrc
    | done w t e =>
      rw [hwl] at h
      dsimp only at h
      have hwb : writtenBytes tr = w := by rw [writtenBytes, hwl]
      have hwdone : writeDoneB tr = true := by rw [writeDoneB, hwl]
      by_cases hs : tr.syncOk = false
      · rw [if_pos hs] at h
        cases h
        have hwc : ¬ writeCompleted tr := fun hw => by rw [hw.2.2.1] at hs; cases hs
        have hrc : ¬ readCompleted tr := fun hr => hwc hr.1
        refine ⟨⟨?_, fun _ => rfl⟩, ⟨?_, fun _ => rfl⟩, fun hcf => absurd hcf hc⟩
        · constructor
          · intro hpos; exact absurd hpos (by norm_num)
          · intro hcond; exact absurd hcond.1 hwc
        · constructor
          · intro hpos; exact absurd hpos (by norm_num)
          · intro hcond; exact absurd hcond.1 hrc
      · rw [if_neg hs] at h
        have hs' : tr.syncOk = true := by
          cases hss : tr.syncOk
          · exact absurd hss hs
          · rfl
        by_cases hcl : tr.closeOk = false
        · rw [if_pos hcl] at h
          cases h
          have hwc : ¬ writeCompleted tr := fun hw => by rw [hw.2.2.2] at hcl; cases hcl
          have hrc : ¬ readCompleted tr := fun hr => hwc hr.1
          refine ⟨⟨?_, fun _ => rfl⟩, ⟨?_, fun _ => rfl⟩, fun hcf => absurd hcf hc⟩
          · constructor
            · intro hpos; exact absurd hpos (by norm_num)
            · intro hcond; exact absurd hcond.1 hwc
          · constructor
            · intro hpos; exact absurd hpos (by norm_num)
            · intro hcond; exact absurd hcond.1 hrc
        · rw [if_neg hcl] at h
          have hcl' : tr.closeOk = true := by
            cases hcc : tr.closeOk
            · exact absurd hcc hcl
            · rfl
          have hwcomp : writeCompleted tr := ⟨hc', hwdone, hs', hcl'⟩
          -- the write-speed expression shared by all remaining cases
          have hwrite_conc :
              ∀ s : BenchmarkResult,
                s.writeMBps =
                  (if 0 < tr.writeDuration ∧ 0 < w then mbps w tr.writeDuration else 0) →
                (0 < s.writeMBps ↔
                  writeCompleted tr ∧ 0 < tr.writeDuration ∧ 0 < writtenBytes tr) ∧
                (¬(writeCompleted tr ∧ 0 < tr.writeDuration ∧ 0 < writtenBytes tr) →
                  s.writeMBps = 0) := by
            intro s hsw
            by_cases hwcond : 0 < tr.writeDuration ∧ 0 < w
            · rw [if_pos hwcond] at hsw
              constructor
              · constructor
                · intro _; exact ⟨hwcomp, hwcond.1, hwb ▸ hwcond.2⟩
                · intro _; rw [hsw]; exact mbps_pos hwcond.2 hwcond.1
              · intro hneg
                exact absurd ⟨hwcomp, hwcond.1, hwb ▸ hwcond.2⟩ hneg
            · rw [if_neg hwcond] at hsw
              constructor
              · constructor
                · intro hpos; rw [hsw] at hpos; exact absurd hpos (by norm_num)
                · intro hcond
                  exact absurd ⟨hcond.2.1, hwb ▸ hcond.2.2⟩ hwcond
              · intro _; exact hsw

          by_cases ho : tr.openOk = false
          · rw [if_pos ho] at h
            cases h
            have hrc : ¬ readCompleted tr := fun hr => by rw [hr.2.1] at ho; cases ho
            refine ⟨hwrite_conc _ rfl, ⟨?_, fun _ => rfl⟩, fun hcf => absurd hcf hc⟩
            constructor
            · intro hpos; exact absurd hpos (by norm_num)
            · intro hcond; exact absurd hcond.1 hrc
          · rw [if_neg ho] at h
            have ho' : tr.openOk = true := by
              cases hoo : tr.openOk
              · exact absurd hoo ho
              · rfl
            cases hrl : readLoop 0 tr.reads with
            | ranOut => rw [hrl] at h; dsimp only at h; cases h
            | failed =>
              rw [hrl] at h
              dsimp only at h
              cases h
              have hrc : ¬ readCompleted tr := fun hr => by
                have := hr.2.2
                rw [readDoneB, hrl] at this
                cases this
              refine ⟨hwrite_conc _ rfl, ⟨?_, fun _ => rfl⟩, fun hcf => absurd hcf hc⟩
              constructor
              · intro hpos; exact absurd hpos (by norm_num)
              · intro hcond; exact absurd hcond.1 hrc
            | done n =>
              rw [hrl] at h
              dsimp only at h
              cases h
              have hrb : readBytes tr = n := by rw [readBytes, hrl]
              have hrdone : readDoneB tr = true := by rw [readDoneB, hrl]
              have hrcomp : readCompleted tr := ⟨hwcomp, ho', hrdone⟩
              refine ⟨hwrite_conc _ rfl, ⟨?_, ?_⟩, fun hcf => absurd hcf hc⟩
              · by_cases hrcond : 0 < tr.readDuration ∧ 0 < n
                · simp only [if_pos hrcond]
                  constructor
                  · intro _; exact ⟨hrcomp, hrcond.1, hrb ▸ hrcond.2⟩
                  · intro _; exact mbps_pos hrcond.2 hrcond.1
                · simp only [if_neg hrcond]
                  constructor
                  · intro hpos; exact absurd hpos (by norm_num)
                  · intro hcond
                    exact absurd ⟨hcond.2.1, hrb ▸ hcond.2.2⟩ hrcond
              · intro hneg
                by_cases hrcond : 0 < tr.readDuration ∧ 0 < n
                · exact absurd ⟨hrcomp, hrcond.1, hrb ▸ hrcond.2⟩ hneg
                · simp only [if_neg hrcond]

theorem c5_benchmark_zero_or_positive_witness :
    ((0 < (⟨0, 0⟩ : BenchmarkResult).writeMBps ↔
        writeCompleted ⟨true, List.replicate 8 ⟨4 * mib, false, 500000000⟩, true, true, 0,
          true, [⟨33554432, .eof⟩], 0⟩ ∧
        0 < (⟨true, List.replicate 8 ⟨4 * mib, false, 500000000⟩, true, true, 0,
          true, [⟨33554432, .eof⟩], 0⟩ : IOTrace).writeDuration ∧
        0 < writtenBytes ⟨true, List.replicate 8 ⟨4 * mib, false, 500000000⟩, true, true, 0,
          true, [⟨33554432, .eof⟩], 0⟩) ∧
      (¬(writeCompleted ⟨true, List.replicate 8 ⟨4 * mib, false, 500000000⟩, true, true, 0,
          true, [⟨33554432, .eof⟩], 0⟩ ∧
        0 < (⟨true, List.replicate 8 ⟨4 * mib, false, 500000000⟩, true, true, 0,
          true, [⟨33554432, .eof⟩], 0⟩ : IOTrace).writeDuration ∧
        0 < writtenBytes ⟨true, List.replicate 8 ⟨4 * mib, false, 500000000⟩, true, true, 0,
          true, [⟨33554432, .eof⟩], 0⟩) →
        (⟨0, 0⟩ : BenchmarkResult).writeMBps = 0)) ∧
    ((0 < (⟨0, 0⟩ : BenchmarkResult).readMBps ↔
        readCompleted ⟨true, List.replicate 8 ⟨4 * mib, false, 500000000⟩, true, true, 0,
          true, [⟨33554432, .eof⟩], 0⟩ ∧
        0 < (⟨true, List.replicate 8 ⟨4 * mib, false, 500000000⟩, true, true, 0,
          true, [⟨33554432, .eof⟩], 0⟩ : IOTrace).readDuration ∧
        0 < readBytes ⟨true, List.replicate 8 ⟨4 * mib, false, 500000000⟩, true, true, 0,
          true, [⟨33554432, .eof⟩], 0⟩) ∧
      (¬(readCompleted ⟨true, List.replicate 8 ⟨4 * mib, false, 500000000⟩, true, true, 0,
          true, [⟨33554432, .eof⟩], 0⟩ ∧
        0 < (⟨true, List.replicate 8 ⟨4 * mib, false, 500000000⟩, true, true, 0,
          true, [⟨33554432, .eof⟩], 0⟩ : IOTrace).readDuration ∧
        0 < readBytes ⟨true, List.replicate 8 ⟨4 * mib, false, 500000000⟩, true, true, 0,
          true, [⟨33554432, .eof⟩], 0⟩) →
        (⟨0, 0⟩ : BenchmarkResult).readMBps = 0)) ∧
    ((⟨true, List.replicate 8 ⟨4 * mib, false, 500000000⟩, true, true, 0,
        true, [⟨33554432, .eof⟩], 0⟩ : IOTrace).createOk = false →
      (⟨0, 0⟩ : BenchmarkResult) = ⟨0, 0⟩) :=
  c5_benchmark_zero_or_positive
    ⟨true, List.replicate 8 ⟨4 * mib, false, 500000000⟩, true, true, 0,
      true, [⟨33554432, .eof⟩], 0⟩ ⟨0, 0⟩ (by decide)

/-! ## Integrity verification (C3, C4) -/

theorem fillPattern_length (off n : Nat) : (fillPattern off n).length = n := by
  simp [fillPattern]

/-- A write phase that finishes without error has written exactly the
requested size (each chunk is clipped to the remaining bytes). -/
theorem icWriteLoop_done_eq (size : Nat) (evs : List WEv) :
    ∀ (written w : Nat), written ≤ size →
      icWriteLoop size written evs = some (w, none) → w = size := by
  induction evs with
  | nil =>
    intro written w hle h
    simp only [icWriteLoop] at h
    split at h
    · cases h
      omega
    · cases h
  | cons ev rest ih =>
    intro written w hle h
    simp only [icWriteLoop] at h
    split at h
    · cases h
      omega
    · by_cases hw : ev.werr = true
      · rw [if_pos hw] at h
        cases h
      · rw [if_neg hw] at h
        by_cases hn : ev.n ≠ min icChunkSize (size - written)
        · rw [if_pos hn] at h
          cases h
        · rw [if_neg hn] at h
          push_neg at hn
          have : written + ev.n ≤ size := by
            have := min_le_right icChunkSize (size - written)
            omega
          exact ih (written + ev.n) w this h

/-- Reading back chunks that match the expected pattern advances the
verify loop past them without recording anything. -/
theorem icVerifyLoop_cleanChunks (ns : List Nat) :
    ∀ (off : Nat) (l : List REv),
      icVerifyLoop off (cleanChunks off ns ++ l) = icVerifyLoop (off + ns.sum) l := by
  induction ns with
  | nil => intro off l; simp [cleanChunks]
  | cons n ns ih =>
    intro off l
    have hstep : icVerifyLoop off (cleanChunks off (n :: ns) ++ l) =
        icVerifyLoop (off + n) (cleanChunks (off + n) ns ++ l) := by
      simp only [cleanChunks, List.cons_append, icVerifyLoop, fillPattern_length]
      rcases Nat.eq_zero_or_pos n with hn | hn
      · subst hn
        norm_num
      · rw [if_pos hn, if_neg (fun hne => hne rfl)]
        rfl
    rw [hstep, ih (off + n) l, List.sum_cons, Nat.add_assoc]

/-- C3: on an uncorrupted target — a write phase that completes in full,
and read-back data that equals `fillPattern` at every offset, delivered
in arbitrary chunk sizes and terminated by EOF at `size` — the integrity
check reports success with no errors and
`BytesVerified = BytesWritten = size`. -/
theorem c3_clean_integrity_roundtrip (size : Nat) (tr : ITrace) (w : Nat) (ns : List Nat)
    (hpos : 0 < size) (hcreate : tr.createOk = true)
    (hwrites : icWriteLoop size 0 tr.writes = some (w, none))
    (hsync : tr.syncOk = true) (hclose : tr.closeOk = true) (hopen : tr.openOk = true)
    (hreads : tr.reads = cleanREvs 0 ns) (hsum : ns.sum = size) :
    ∃ r, runIntegrityCheck size tr = some r ∧ r.success = true ∧ r.errors = [] ∧
      r.bytesWritten = size ∧ r.bytesVerified = size := by
  have hw : w = size := icWriteLoop_done_eq size tr.writes 0 w (Nat.zero_le _) hwrites
  rw [hw] at hwrites
  have hverify : icVerifyLoop 0 tr.reads = some (size, none) := by
    rw [hreads, cleanREvs, icVerifyLoop_cleanChunks ns 0 _, Nat.zero_add, hsum]
    rfl
  unfold runIntegrityCheck
  rw [if_neg (by rw [hcreate]; exact fun hcf => by cases hcf), hwrites]
  dsimp only
  rw [if_neg (by rw [hsync]; exact fun hsf => by cases hsf),
      if_neg (by rw [hclose]; exact fun hclf => by cases hclf),
      if_neg (by rw [hopen]; exact fun hof => by cases hof), hverify]
  exact ⟨_, rfl, rfl, rfl, rfl, rfl⟩

theorem c3_clean_integrity_roundtrip_witness :
    ∃ r, runIntegrityCheck 3 ⟨true, [⟨3, false⟩], true, true, 0, true,
        cleanREvs 0 [3], 0⟩ = some r ∧
      r.success = true ∧ r.errors = [] ∧ r.bytesWritten = 3 ∧ r.bytesVerified = 3 :=
  c3_clean_integrity_roundtrip 3
    ⟨true, [⟨3, false⟩], true, true, 0, true, cleanREvs 0 [3], 0⟩ 3 [3]
    (by decide) rfl (by decide) rfl rfl rfl rfl rfl

/-- C4: if the read-back first deviates from the pattern at byte offset
`X = ns.sum + firstDiffIdx …` (all chunks before it are clean, the bad
chunk starts at offset `ns.sum ≤ X`), the check records exactly one
error entry — a mismatch naming the start offset of the bad chunk —
reports failure, and never examines the rest of the read stream: the
result is the same for every continuation of the trace. -/
theorem c4_first_mismatch_fast_fail (size : Nat) (ws : List WEv) (ns : List Nat)
    (bad : REv) (rest₁ rest₂ : List REv) (wd rd : Nat) (w : Nat)
    (hwrites : icWriteLoop size 0 ws = some (w, none))
    (hbad : bad.data ≠ fillPattern ns.sum bad.data.length) :
    ∃ r,
      runIntegrityCheck size
        ⟨true, ws, true, true, wd, true, cleanChunks 0 ns ++ bad :: rest₁, rd⟩ = some r ∧
      runIntegrityCheck size
        ⟨true, ws, true, true, wd, true, cleanChunks 0 ns ++ bad :: rest₂, rd⟩ = some r ∧
      r.errors = [.mismatch ns.sum] ∧ r.success = false ∧
      r.bytesVerified = ns.sum + bad.data.length ∧
      ns.sum ≤ ns.sum + firstDiffIdx bad.data (fillPattern ns.sum bad.data.length) := by
  have hn : 0 < bad.data.length := by
    rcases Nat.eq_zero_or_pos bad.data.length with h0 | h
    · exfalso
      apply hbad
      rw [h0]
      rw [List.length_eq_zero.mp h0]
      rfl
    · exact h
  have hstep : ∀ rest : List REv,
      icVerifyLoop ns.sum (bad :: rest) =
        some (ns.sum + bad.data.length, some (.mismatch ns.sum)) := by
    intro rest
    simp only [icVerifyLoop, if_pos hn, if_pos hbad]
  have hrunEq : ∀ rest : List REv,
      runIntegrityCheck size ⟨true, ws, true, true, wd, true,
          cleanChunks 0 ns ++ bad :: rest, rd⟩ =
        some ⟨(if 0 < wd ∧ 0 < w then mbps w wd else 0),
          (if 0 < rd ∧ 0 < ns.sum + bad.data.length
            then mbps (ns.sum + bad.data.length) rd else 0),
          w, ns.sum + bad.data.length, [.mismatch ns.sum]⟩ := by
    intro rest
    unfold runIntegrityCheck
    rw [if_neg (fun hcf => by cases hcf), hwrites]
    dsimp only
    rw [if_neg (fun hsf => by cases hsf), if_neg (fun hclf => by cases hclf),
        if_neg (fun hof => by cases hof)]
    have := icVerifyLoop_cleanChunks ns 0 (bad :: rest)
    rw [Nat.zero_add] at this
    rw [this, hstep rest]
  exact ⟨_, hrunEq rest₁, hrunEq rest₂, rfl, rfl, rfl, Nat.le_add_right _ _⟩

theorem c4_first_mismatch_fast_fail_witness :
    ∃ r,
      runIntegrityCheck 3
        ⟨true, [⟨3, false⟩], true, true, 0, true,
          cleanChunks 0 [] ++ (⟨[9, 9, 9], .ok⟩ : REv) :: [], 0⟩ = some r ∧
      runIntegrityCheck 3
        ⟨true, [⟨3, false⟩], true, true, 0, true,
          cleanChunks 0 [] ++ (⟨[9, 9, 9], .ok⟩ : REv) :: [⟨[1], .ok⟩], 0⟩ = some r ∧
      r.errors = [.mismatch (List.sum [])] ∧ r.success = false ∧
      r.bytesVerified = List.sum [] + ([9, 9, 9] : List Nat).length ∧
      List.sum [] ≤ List.sum [] +
        firstDiffIdx [9, 9, 9] (fillPattern (List.sum []) ([9, 9, 9] : List Nat).length) :=
  c4_first_mismatch_fast_fail 3 [⟨3, false⟩] [] ⟨[9, 9, 9], .ok⟩ [] [⟨[1], .ok⟩] 0 0 3
    (by decide) (by decide)

/-! ## Threshold validation and the format run (C6) -/

theorem preTouch_append_of_touch (l₁ l₂ : List FmtAction)
    (h : ∃ a ∈ l₁, touchesDevice a = true) :
    preTouch (l₁ ++ l₂) = preTouch l₁ := by
  induction l₁ with
  | nil => rcases h with ⟨a, ha, _⟩; cases ha
  | cons a l ih =>
    by_cases hta : touchesDevice a = true
    · simp [preTouch, List.takeWhile, hta]
    · rcases h with ⟨b, hb, htb⟩
      rcases List.mem_cons.mp hb with rfl | hb
      · exact absurd htb hta
      · have hna : (!touchesDevice a) = true := by
          cases hx : touchesDevice a
          · rfl
          · exact absurd hx hta
        simp only [preTouch, List.cons_append, List.takeWhile_cons, hna, if_true]
        have := ih ⟨b, hb, htb⟩
        simp only [preTouch] at this
        rw [this]

theorem fmtStage4_no_exitFail (env : FmtEnv) (flags : FmtFlags)
    (t : BenchmarkThresholds) (label cluster : String) (devices : List String)
    (acts : List FmtAction) :
    (fmtStage4 env flags t label cluster devices acts).2 ≠ .exitFail := by
  unfold fmtStage4
  split_ifs
  · intro h; cases h
  · cases devices with
    | nil => intro h; cases h
    | cons d ds =>
      cases ds with
      | nil => intro h; cases h
      | cons d2 ds2 => intro h; cases h

theorem fmtStage3_no_exitFail (env : FmtEnv) (flags : FmtFlags)
    (t : BenchmarkThresholds) (label cluster : String) (devices : List String)
    (acts : List FmtAction) :
    (fmtStage3 env flags t label cluster devices acts).2 ≠ .exitFail := by
  unfold fmtStage3
  split_ifs with hif
  · cases devices with
    | nil => exact fmtStage4_no_exitFail env flags t label cluster [] acts
    | cons d ds =>
      dsimp only
      split_ifs with hp
      · intro h; cases h
      · exact fmtStage4_no_exitFail env flags t label cluster (d :: ds) _
  · exact fmtStage4_no_exitFail env flags t label cluster devices acts

theorem fmtStage4_acts (env : FmtEnv) (flags : FmtFlags)
    (t : BenchmarkThresholds) (label cluster : String) (devices : List String)
    (acts : List FmtAction) :
    ∃ tail, (fmtStage4 env flags t label cluster devices acts).1 = acts ++ tail := by
  unfold fmtStage4
  split_ifs
  · exact ⟨[], (List.append_nil acts).symm⟩
  · cases devices with
    | nil => exact ⟨_, rfl⟩
    | cons d ds =>
      cases ds with
      | nil => exact ⟨_, rfl⟩
      | cons d2 ds2 => exact ⟨_, rfl⟩

theorem fmtStage3_acts (env : FmtEnv) (flags : FmtFlags)
    (t : BenchmarkThresholds) (label cluster : String) (devices : List String)
    (acts : List FmtAction) :
    ∃ tail, (fmtStage3 env flags t label cluster devices acts).1 = acts ++ tail := by
  unfold fmtStage3
  split_ifs with hif
  · cases devices with
    | nil => exact fmtStage4_acts env flags t label cluster [] acts
    | cons d ds =>
      dsimp only
      split_ifs with hp
      · exact ⟨_, rfl⟩
      · rcases fmtStage4_acts env flags t label cluster (d :: ds)
          (acts ++ [.benchmarkAct d]) with ⟨tail, htail⟩
        exact ⟨[.benchmarkAct d] ++ tail, by rw [htail, List.append_assoc]⟩
  · exact fmtStage4_acts env flags t label cluster devices acts

theorem deviceChecks_ok_mem (env : FmtEnv) (d : String) (ds : List String)
    (h : (deviceChecks env (d :: ds)).2 = true) :
    FmtAction.removableAct d ∈ (deviceChecks env (d :: ds)).1 := by
  by_cases hv : validateDevice env.os d = false
  · simp [deviceChecks, hv] at h
  · cases hre : env.removableErr d with
    | some e => simp [deviceChecks, hv, hre] at h
    | none => simp [deviceChecks, hv, hre]

/-- C6: the claim as stated is false: `formatDrive` performs no
threshold-ordering validation, so a profile whose merged thresholds are
malformed (`verySlow < extremelySlow`) does not make the run fail — the
run still probes, benchmarks and proceeds to format the device, carrying
the malformed thresholds. -/
theorem c6_malformed_thresholds_not_fatal :
    (mergedBenchmarkThresholds (some ⟨10, 0, 0, 0⟩)).verySlow <
      (mergedBenchmarkThresholds (some ⟨10, 0, 0, 0⟩)).extremelySlow ∧
    (formatDriveModel c6Env c6Flags [ "disk2"]).1.any touchesDevice = true ∧
    (formatDriveModel c6Env c6Flags [ "disk2"]).2 ≠ .exitFail ∧
    (formatDriveModel c6Env c6Flags [ "disk2"]).2 =
      .formats [ "disk2"] ( "REKORDBOX") ( "")
        (mergedBenchmarkThresholds (some ⟨10, 0, 0, 0⟩)) := by
  decide

/-- C6 (amended): the format run itself never validates the threshold
ordering: after the profile stage has fixed the thresholds, the actions
taken before any device is touched, and whether the run aborts with a
fatal error, are the same for every thresholds value.  The ordering
invariant `extremelySlow ≤ verySlow ≤ slightlySlow` is enforced only by
`validateBenchmarkThresholds` — invoked on the profile-save path, not on
the format path — which accepts exactly the thresholds that are positive
and correctly ordered. -/
theorem c6_threshold_validation_amended :
    (∀ t : BenchmarkThresholds,
      validateBenchmarkThresholds t = none ↔
        (0 < t.extremelySlow ∧ 0 < t.verySlow ∧ 0 < t.slightlySlow ∧
         t.extremelySlow ≤ t.verySlow ∧ t.verySlow ≤ t.slightlySlow ∧ 0 < t.prompt)) ∧
    (∀ (env : FmtEnv) (flags : FmtFlags) (t₁ t₂ : BenchmarkThresholds)
        (label cluster : String) (args : List String) (acts : List FmtAction),
      preTouch (fmtStage2 env flags t₁ label cluster args acts).1 =
        preTouch (fmtStage2 env flags t₂ label cluster args acts).1 ∧
      ((fmtStage2 env flags t₁ label cluster args acts).2 = .exitFail ↔
        (fmtStage2 env flags t₂ label cluster args acts).2 = .exitFail)) := by
  constructor
  · intro t
    unfold validateBenchmarkThresholds
    split_ifs with h1 h2 h3 h4
    · refine ⟨fun hx => absurd hx (by simp), fun hr => ?_⟩
      rcases h1 with h | h | h
      · exact absurd hr.1 (not_lt.mpr h)
      · exact absurd hr.2.1 (not_lt.mpr h)
      · exact absurd hr.2.2.1 (not_lt.mpr h)
    · refine ⟨fun hx => absurd hx (by simp), fun hr => ?_⟩
      exact absurd h2 (not_lt.mpr hr.2.2.2.1)
    · refine ⟨fun hx => absurd hx (by simp), fun hr => ?_⟩
      exact absurd h3 (not_lt.mpr hr.2.2.2.2.1)
    · refine ⟨fun hx => absurd hx (by simp), fun hr => ?_⟩
      exact absurd hr.2.2.2.2.2 (not_lt.mpr h4)
    · push_neg at h1
      refine ⟨fun _ => ⟨h1.1, h1.2.1, h1.2.2, not_lt.mp h2, not_lt.mp h3, not_le.mp h4⟩,
        fun _ => rfl⟩
  · intro env flags t₁ t₂ label cluster args acts
    unfold fmtStage2
    cases hcl : (if cluster = "" then some cluster else normalizeClusterSize cluster) with
    | none => exact ⟨rfl, Iff.rfl⟩
    | some cluster1 =>
      dsimp only
      set devs := (if args = [] then env.stdinDevices else args) with hdevs
      by_cases hdev : devs = []
      · simp only [if_pos hdev]
        exact ⟨by trivial, by simp⟩
      · simp only [if_neg hdev]
        by_cases hchk : (deviceChecks env devs).2 = false
        · simp only [if_pos hchk]
          exact ⟨by trivial, by simp⟩
        · have hchk' : (deviceChecks env devs).2 = true := by
            cases hx : (deviceChecks env devs).2
            · exact absurd hx hchk
            · rfl
          simp only [if_neg hchk]
          set acts2 := (acts ++ (if args = [] then [FmtAction.listDrivesAct] else [])) ++
            (deviceChecks env devs).1 with hacts2
          rcases List.exists_cons_of_ne_nil hdev with ⟨d, ds, hds⟩
          have hmem2 : ∃ a ∈ acts2, touchesDevice a = true := by
            refine ⟨.removableAct d, ?_, rfl⟩
            rw [hacts2]
            apply List.mem_append_right
            rw [hds] at hchk' ⊢
            exact deviceChecks_ok_mem env d ds hchk'
          constructor
          · rcases fmtStage3_acts env flags t₁ label cluster1 devs acts2 with ⟨tail₁, htail₁⟩
            rcases fmtStage3_acts env flags t₂ label cluster1 devs acts2 with ⟨tail₂, htail₂⟩
            rw [htail₁, htail₂, preTouch_append_of_touch _ _ hmem2,
              preTouch_append_of_touch _ _ hmem2]
          · exact iff_of_false
              (fmtStage3_no_exitFail env flags t₁ label cluster1 devs acts2)
              (fmtStage3_no_exitFail env flags t₂ label cluster1 devs acts2)

/-! ## Label assignment and uniqueness (C8) -/

/-- C8: multi-device label assignment: device 0 keeps the base label,
device `i > 0` gets the base suffixed with `i+1`; `getUniqueLabel` then
returns the base unchanged when it is not among the existing volume
labels, and otherwise the first free candidate `base2 … base99`, which
is itself not among the existing labels whenever any candidate in that
range is free; in particular two devices with base `REKORDBOX` and no
colliding labels get `REKORDBOX` and `REKORDBOX2`. -/
theorem c8_label_assignment :
    (∀ (existing : String → Bool) (base : String),
      existing (upperS base) = false → getUniqueLabel existing base = base) ∧
    (∀ (existing : String → Bool) (base : String) (i : Nat),
      i ∈ List.range' 2 98 → existing (upperS (base ++ toString i)) = false →
      existing (upperS (getUniqueLabel existing base)) = false) ∧
    (∀ (env : MultiEnv) (d₁ d₂ : String),
      (∀ d l, env.existingLabels d l = false) →
      multiLabels env ( "REKORDBOX") [d₁, d₂] = [ "REKORDBOX", "REKORDBOX2"]) := by
  refine ⟨?_, ?_, ?_⟩
  · intro ex base h
    unfold getUniqueLabel
    rw [if_pos h]
  · intro ex base i hi hfree
    unfold getUniqueLabel
    by_cases hbase : ex (upperS base) = false
    · rw [if_pos hbase]
      exact hbase
    · rw [if_neg hbase]
      cases hfind : (List.range' 2 98).find? (fun j => !ex (upperS (base ++ toString j))) with
      | none =>
        exfalso
        have hnone := List.find?_eq_none.mp hfind i hi
        apply hnone
        rw [hfree]
        rfl
      | some j =>
        have hj := List.find?_some hfind
        dsimp only
        cases hx : ex (upperS (base ++ toString j))
        · rfl
        · rw [hx] at hj
          cases hj
  · intro env d₁ d₂ h
    show [getUniqueLabel (env.existingLabels d₁) (assignedLabel ( "REKORDBOX") 0),
          getUniqueLabel (env.existingLabels d₂) (assignedLabel ( "REKORDBOX") 1)] =
      [ "REKORDBOX", "REKORDBOX2"]
    unfold getUniqueLabel
    rw [if_pos (h d₁ _), if_pos (h d₂ _)]
    rfl

theorem c8_label_assignment_witness :
    multiLabels emptyLabelEnv ( "REKORDBOX") [ "E:", "F:"] =
      [ "REKORDBOX", "REKORDBOX2"] :=
  c8_label_assignment.2.2 emptyLabelEnv ( "E:") ( "F:") (fun _ _ => rfl)

/-! ## Concurrent fan-out outcome counts (C9) -/

theorem driveTask_sends_one (env : MultiEnv) (b c d : String) (i : Nat) :
    (driveTask env b c d i).1.length = 1 := by
  unfold driveTask
  split
  · rfl
  · dsimp only
    split
    · rfl
    · rfl

theorem driveTask_attempts (env : MultiEnv) (b c d : String) (i : Nat) :
    (driveTask env b c d i).2 = [] ∨ (driveTask env b c d i).2 = [d] := by
  unfold driveTask
  split
  · exact Or.inl rfl
  · dsimp only
    split
    · exact Or.inr rfl
    · exact Or.inr rfl

theorem multiFanOut_spec (env : MultiEnv) (b c : String) (devices : List String) :
    ∀ i : Nat,
      (multiFanOut env b c devices i).1.length = devices.length ∧
      ∀ d : String, (multiFanOut env b c devices i).2.count d ≤ devices.count d := by
  induction devices with
  | nil => intro i; exact ⟨rfl, fun d => le_refl _⟩
  | cons dv ds ih =>
    intro i
    constructor
    · show ((driveTask env b c dv i).1 ++ (multiFanOut env b c ds (i + 1)).1).length = _
      rw [List.length_append, driveTask_sends_one, (ih (i + 1)).1]
      simp [Nat.add_comm]
    · intro d
      show ((driveTask env b c dv i).2 ++ (multiFanOut env b c ds (i + 1)).2).count d ≤ _
      rw [List.count_append]
      have h1 := (ih (i + 1)).2 d
      rcases driveTask_attempts env b c dv i with h | h
      · rw [h]
        simp only [List.count_nil, Nat.zero_add]
        calc (multiFanOut env b c ds (i + 1)).2.count d
            ≤ ds.count d := h1
          _ ≤ (dv :: ds).count d := by
              by_cases hd : d = dv <;> simp [List.count_cons, hd]
      · rw [h]
        have hcons : (dv :: ds).count d = ds.count d + (if d = dv then 1 else 0) := by
          by_cases hd : d = dv <;> simp [List.count_cons, hd]
        have hsing : ([dv] : List String).count d = (if d = dv then 1 else 0) := by
          by_cases hd : d = dv <;> simp [hd]
        rw [hcons, hsing]
        by_cases hd : d = dv
        · subst hd
          simp only [if_pos rfl]
          omega
        · simp only [if_neg hd]
          omega

/-- C9: each per-device task of `formatMultipleDrives` sends exactly one
outcome on every control path, so formatting `N` devices collects
exactly `N` outcome entries; and when the requested devices are
pairwise distinct, no device has the platform format invoked on it more
than once per run. -/
theorem c9_outcome_counts :
    (∀ (env : MultiEnv) (devices : List String) (b c : String),
      (formatMultipleDrives env devices b c).1.length = devices.length) ∧
    (∀ (env : MultiEnv) (b c d : String) (i : Nat),
      (driveTask env b c d i).1.length = 1) ∧
    (∀ (env : MultiEnv) (devices : List String) (b c d : String),
      devices.Nodup → (formatMultipleDrives env devices b c).2.count d ≤ 1) := by
  refine ⟨?_, ?_, ?_⟩
  · intro env devices b c
    exact (multiFanOut_spec env b c devices 0).1
  · intro env b c d i
    exact driveTask_sends_one env b c d i
  · intro env devices b c d hnodup
    exact le_trans ((multiFanOut_spec env b c devices 0).2 d)
      (List.nodup_iff_count_le_one.mp hnodup d)

theorem c9_outcome_counts_witness :
    (formatMultipleDrives emptyLabelEnv [ "E:", "F:"] ( "L") ( "")).2.count ( "E:") ≤ 1 :=
  c9_outcome_counts.2.2 emptyLabelEnv [ "E:", "F:"] ( "L") ( "") ( "E:") (by decide)

end CDJF
